import Mathlib

/-!
Verification of the MaterializationEngine spatial-lookup and segmentation-ingest
pipeline (`materializationengine/workflows/spatial_lookup.py` and
`materializationengine/workflows/ingest_new_annotations.py`).

Each Python function relevant to the verified properties is shallowly embedded
as an executable Lean definition keeping the source's name where possible.
Database tables are lists of rows, dataframes are lists of records, external
services (segmentation volume, chunked-graph, queue, checkpoint store) are
explicit function parameters or observation streams.
-/

namespace MatEngine

/-! ## Basic helper definitions -/

/-- A 3D integer point (annotation positions, scaled voxel keys, chunk keys). -/
abbrev Point3 := ℤ × ℤ × ℤ

/-- First-match lookup in an association list keyed by `Point3`; embeds Python
`dict.get(key, default)` (with the convention that entries added later are put
in front). -/
def lookupPoint : List (Point3 × ℕ) → Point3 → Option ℕ
  | [], _ => none
  | (k, v) :: rest, p => if k = p then some v else lookupPoint rest p

/-- Structural worker for `batchesOf`; the fuel argument only bounds the
recursion depth (any fuel at least the list length gives the same result). -/
def batchesOfGo (n : ℕ) : ℕ → List α → List (List α)
  | 0, _ => []
  | fuel + 1, l => if l.length = 0 ∨ n = 0 then [] else l.take n :: batchesOfGo n fuel (l.drop n)

/-- Split a list into consecutive batches of size `n`; embeds the loop
`for batch_start in range(0, len(df), batch_size)` of `get_scatter_points`
(for `n = 0` the Python loop would not terminate; we return `[]`). -/
def batchesOf (n : ℕ) (l : List α) : List (List α) :=
  batchesOfGo n l.length l

/-- Insert an element into a sorted list according to a boolean comparator. -/
def insertSorted (le : α → α → Bool) (x : α) : List α → List α
  | [] => [x]
  | y :: ys => if le x y then x :: y :: ys else y :: insertSorted le x ys

/-- Sort a list by a boolean comparator (insertion sort); embeds
`df.sort_values(by="chunk_key")` (the claims settled here do not depend on the
relative order of equal keys, which pandas leaves unspecified). -/
def sortByBool (le : α → α → Bool) : List α → List α
  | [] => []
  | x :: xs => insertSorted le x (sortByBool le xs)

/-- Structural worker for `firstOccur`; the fuel argument only bounds the
recursion depth (any fuel at least the list length gives the same result). -/
def firstOccurGo [DecidableEq α] : ℕ → List α → List α
  | 0, _ => []
  | _ + 1, [] => []
  | fuel + 1, x :: xs => x :: firstOccurGo fuel (xs.filter (· ≠ x))

/-- Keep the first occurrence of every element; embeds pandas
`Series.unique()` (first-occurrence order). -/
def firstOccur [DecidableEq α] (l : List α) : List α :=
  firstOccurGo l.length l

/-- `true` iff the character list contains `"pt"` as a substring; embeds the
pandas test `Series.str.contains("pt")` applied to one type tag. -/
def hasPt : List Char → Bool
  | 'p' :: 't' :: _ => true
  | _ :: rest => hasPt rest
  | [] => false

/-- `true` iff the string ends with `"pt"`; used only to state the spec's
"type tags already end in `pt`" side of claim C3 (the source itself tests
substring containment instead). -/
def endsInPt (s : String) : Bool :=
  match s.toList.reverse with
  | 't' :: 'p' :: _ => true
  | _ => false

/-! ## Segmentation upsert (`insert_segmentation_data`, spatial_lookup.py 685-754)

A segmentation row is its primary key `id` together with the list of its
non-id column values (supervoxel and root id columns, in model order); the
dataframe preparation in `insert_segmentation_data` backfills every absent
column with 0, so incoming rows always carry all columns. -/

structure SegRow where
  id : ℕ
  cols : List ℕ
deriving DecidableEq, Repr

/-- The `SET` clause of the upsert: per non-id column
`CASE WHEN excluded <> 0 THEN excluded ELSE existing END`
(`insert_segmentation_data`, spatial_lookup.py 737-748). `incoming` is the
`excluded` row, `existing` the row already stored. -/
def mergeSegRow (existing incoming : SegRow) : SegRow :=
  ⟨existing.id, List.zipWith (fun inc ex => if inc ≠ 0 then inc else ex) incoming.cols existing.cols⟩

/-- `INSERT ... ON CONFLICT (id) DO UPDATE` for a single incoming row: if a row
with the same id exists it is updated through `mergeSegRow`, otherwise the
incoming row is inserted as-is. -/
def upsertSegRow : List SegRow → SegRow → List SegRow
  | [], r => [r]
  | e :: t, r => if e.id = r.id then mergeSegRow e r :: t else e :: upsertSegRow t r

/-- The single upsert statement issued by `insert_segmentation_data` applied to
all incoming records in order. -/
def insert_segmentation_data (table : List SegRow) (data : List SegRow) : List SegRow :=
  data.foldl upsertSegRow table

/-- The row currently stored for a given id. -/
def findSegRow (table : List SegRow) (i : ℕ) : Option SegRow :=
  table.find? (fun r => r.id = i)

/-- The last nonzero value of a list, or zero if none: the value the spec says
a column must hold after a sequence of upserts. -/
def lastNonzeroOr0 (vs : List ℕ) : ℕ :=
  ((vs.filter (· ≠ 0)).getLast?).getD 0

/-! ## Supervoxel resolver (`get_scatter_points` and helpers, spatial_lookup.py 479-586)

Physical annotation positions are integer nanometre triples. The segmentation
volume's `resolution` and the table's `coord_resolution` are positive integer
triples; the source computes `scale_factor = cv.resolution / coord_resolution`
componentwise and `scaled = floor(pt / scale_factor)`. Over the integers this
is exactly `fdiv (pt * coord_resolution) resolution` componentwise, which is
how `normalize_positions` is embedded (the equivalence with the rational floor
is proved in `normalize_positions_eq_floor`). -/

/-- A positive integer resolution triple. -/
abbrev Res3 := ℕ × ℕ × ℕ

/-- One row of the spatial query result `(id, type, pt_position)`. -/
structure PtRow where
  id : ℕ
  ty : String
  pt : Point3
deriving DecidableEq, Repr

/-- One row of `result_df` in `get_scatter_points`: the input row together with
its resolved supervoxel id. -/
structure SvRec where
  id : ℕ
  ty : String
  pt : Point3
  svids : ℕ
deriving DecidableEq, Repr

/-- The external collaborators of `get_scatter_points`: the segmentation
volume's metadata (resolution), the table's coordinate resolution, the chunk
position of a scaled point (`point_to_chunk_position`, whose serialized value
is the sort key), and the volume's `scattered_points` operation, which maps a
batch of physical points to a map from scaled key to supervoxel id. -/
structure ScatterEnv where
  resolution : Res3
  coordResolution : Res3
  chunkPos : Point3 → Point3
  scattered : List Point3 → List (Point3 × ℕ)

/-- `normalize_positions(point, scale_factor)` (spatial_lookup.py 484-486) for
`scale_factor = resolution / coord_resolution`:
`floor(point / (resolution / coord_resolution))`
computed exactly over ℤ as `fdiv (point * coord_resolution) resolution`. -/
def normalize_positions (p : Point3) (res cr : Res3) : Point3 :=
  (Int.fdiv (p.1 * cr.1) res.1,
   Int.fdiv (p.2.1 * cr.2.1) res.2.1,
   Int.fdiv (p.2.2 * cr.2.2) res.2.2)

/-- `match_point_and_get_value(point, points_map)` (spatial_lookup.py 479-481):
`points_map.get(tuple(point), 0)`. -/
def match_point_and_get_value (p : Point3) (pointsMap : List (Point3 × ℕ)) : ℕ :=
  (lookupPoint pointsMap p).getD 0

/-- Lexicographic comparator on chunk positions; embeds sorting the dataframe
by the serialized chunk key (`df.sort_values(by="chunk_key")`). -/
def chunkKeyLe (k1 k2 : Point3) : Bool :=
  decide (k1.1 < k2.1) ||
    (k1.1 = k2.1 && (decide (k1.2.1 < k2.2.1) || (k1.2.1 = k2.2.1 && decide (k1.2.2 ≤ k2.2.2))))

/-- The rows of `get_scatter_points` after the `sort_values(by="chunk_key")`
step (spatial_lookup.py 525-533). -/
def scatterSorted (env : ScatterEnv) (rows : List PtRow) : List PtRow :=
  sortByBool
    (fun a b =>
      chunkKeyLe (env.chunkPos (normalize_positions a.pt env.resolution env.coordResolution))
        (env.chunkPos (normalize_positions b.pt env.resolution env.coordResolution)))
    rows

/-- The accumulated `sv_id_data` map: `scattered_points` is called once per
batch of sorted rows and the returned maps are merged with `dict.update`, so a
later batch's entry overrides an earlier one (spatial_lookup.py 540-567). -/
def scatterMergedMap (env : ScatterEnv) (batchSize : ℕ) (rows : List PtRow) : List (Point3 × ℕ) :=
  ((batchesOf batchSize (scatterSorted env rows)).map
      (fun b => env.scattered (b.map (·.pt)))).foldl
    (fun acc m => m ++ acc) []

/-- `result_df` of `get_scatter_points` just before the type renaming
(spatial_lookup.py 569-580): the sorted rows, each with
`svids = sv_id_data.get(scaled, 0)` where `scaled` is its normalized
position. -/
def scatterRecords (env : ScatterEnv) (batchSize : ℕ) (rows : List PtRow) : List SvRec :=
  (scatterSorted env rows).map
    (fun r =>
      ⟨r.id, r.ty, r.pt,
        match_point_and_get_value (normalize_positions r.pt env.resolution env.coordResolution)
          (scatterMergedMap env batchSize rows)⟩)

/-- The type-tag renaming (spatial_lookup.py 581-584): if every `type` value
contains `"pt"`, append `"_supervoxel_id"`; otherwise append
`"_pt_supervoxel_id"`. The test is `Series.str.contains("pt").all()`, evaluated
over all rows collectively. -/
def renameTy (allContainPt : Bool) (ty : String) : String :=
  if allContainPt then ty ++ "_supervoxel_id" else ty ++ "_pt_supervoxel_id"

/-- `result_df` after the type renaming (spatial_lookup.py 581-584). -/
def scatterTyped (env : ScatterEnv) (batchSize : ℕ) (rows : List PtRow) : List SvRec :=
  (scatterRecords env batchSize rows).map
    (fun r =>
      { r with
        ty := renameTy ((scatterRecords env batchSize rows).all (fun x => hasPt x.ty.toList)) r.ty })

/-! ## Pivot (`_safe_pivot_svid_df_to_dict`, spatial_lookup.py 757-785) -/

/-- The column-oriented output dict: the `"id"` column as `ids`, and for each
remaining column its name with the list of values aligned with `ids`. -/
structure PivotOut where
  ids : List ℕ
  tyCols : List String
  colData : List (String × List ℕ)
deriving DecidableEq, Repr

/-- The distinct ids in ascending order: `df.groupby("id")` sorts group keys
ascending and yields each id once. -/
def pivotIds (recs : List SvRec) : List ℕ :=
  firstOccur (sortByBool (fun a b => a ≤ b) (recs.map (·.id)))

/-- The non-id output columns: `df["type"].unique()` in first-occurrence
order. -/
def pivotTyCols (recs : List SvRec) : List String :=
  firstOccur (recs.map (·.ty))

/-- The value of column `c` for id `i`: the group's rows are visited in input
order, starting from 0 and overwriting the cell whenever a row's type equals
`c` — i.e. the last matching row of the group wins
(spatial_lookup.py 771-783). -/
def pivotCell (recs : List SvRec) (i : ℕ) (c : String) : ℕ :=
  (recs.filter (fun r => r.id = i)).foldl (fun acc r => if r.ty = c then r.svids else acc) 0

/-- `_safe_pivot_svid_df_to_dict(df)` (spatial_lookup.py 757-785). -/
def safe_pivot_svid_df_to_dict (recs : List SvRec) : PivotOut :=
  { ids := pivotIds recs,
    tyCols := pivotTyCols recs,
    colData := (pivotTyCols recs).map (fun c => (c, (pivotIds recs).map (fun i => pivotCell recs i c))) }

/-- `get_scatter_points(pts_df, mat_info, batch_size)`
(spatial_lookup.py 513-586): resolve supervoxel ids and pivot. -/
def get_scatter_points (env : ScatterEnv) (batchSize : ℕ) (rows : List PtRow) : PivotOut :=
  safe_pivot_svid_df_to_dict (scatterTyped env batchSize rows)

/-! ## Checkpoint store

`RedisCheckpointManager` lives in
`materializationengine/blueprints/upload/checkpoint_manager.py`, which is not
part of the sources under verification; its increment operation is modelled
from the spec. -/

structure Checkpoint where
  completedChunks : ℕ
  rowsProcessed : ℕ
deriving DecidableEq, Repr

/-- Modelled from the spec: `RedisCheckpointManager.increment_completed`
(checkpoint_manager.py, absent from src) atomically increments
`completed_chunks` by one and accounts the chunk's `rows_processed`
(spec §4.2: "increment_completed(table, rows_processed)", "Atomic increment
for completed chunks"). -/
def increment_completed (cp : Checkpoint) (rowsProcessed : ℕ) : Checkpoint :=
  ⟨cp.completedChunks + 1, cp.rowsProcessed + rowsProcessed⟩

/-! ## Per-chunk task (`process_chunk`, spatial_lookup.py 263-363) -/

/-- `get_pts_from_bbox` (spatial_lookup.py 463-476): the spatial query result
for the chunk's bounding box; an empty dataframe is returned as `None`, not as
an error. -/
def get_pts_from_bbox (queryResult : List PtRow) : Option (List PtRow) :=
  if queryResult.isEmpty then none else some queryResult

/-- The observable effects of one successful `process_chunk` run:
the `rows_processed` arguments of its `increment_completed` calls, whether the
supervoxel lookup (`get_scatter_points`) ran, whether the root-id lookup ran,
and whether an upsert was issued. -/
structure ChunkOutcome where
  increments : List ℕ
  scatterCalled : Bool
  rootLookupCalled : Bool
  upsertCalled : Bool
  pointsCount : ℕ
  svidsCount : ℕ
deriving DecidableEq, Repr

/-- The failure `process_chunk` can hit before reaching its except-handler:
reading the local variable `root_id_data` when no branch ever assigned it
(Python `UnboundLocalError`). -/
inductive ChunkError where
  | unboundLocalRootIdData
deriving DecidableEq, Repr

/-- `process_chunk` (spatial_lookup.py 263-363) with `report_completion=True`
abstracted over the chunk's spatial query result and over
`get_new_root_ids` (`rootLookup`). Mirrors the source's control flow:
empty query → increment with 0 rows and succeed; otherwise resolve supervoxels,
assign `root_id_data` only under `get_root_ids and svids_count > 0`, and
evaluate `upload_to_database and len(root_id_data) > 0`, which reads
`root_id_data` whenever `upload_to_database` is true. -/
def process_chunk (getRootIds uploadToDatabase reportCompletion : Bool)
    (env : ScatterEnv) (batchSize : ℕ) (rootLookup : PivotOut → List ρ)
    (queryResult : List PtRow) : Except ChunkError ChunkOutcome :=
  match get_pts_from_bbox queryResult with
  | none =>
      .ok ⟨if reportCompletion then [0] else [], false, false, false, 0, 0⟩
  | some pts =>
      let pointsCount := pts.length
      let data := get_scatter_points env batchSize pts
      let svidsCount := data.ids.length
      let rootIdData : Option (List ρ) :=
        if getRootIds ∧ svidsCount > 0 then some (rootLookup data) else none
      let inc := if reportCompletion then [pointsCount] else []
      if uploadToDatabase then
        match rootIdData with
        | none => .error .unboundLocalRootIdData
        | some rd =>
            .ok ⟨inc, true, true, rd.length > 0, pointsCount, svidsCount⟩
      else
        .ok ⟨inc, true, rootIdData.isSome, false, pointsCount, svidsCount⟩

/-- Replay a chunk outcome's increments against a checkpoint. -/
def applyIncrements (cp : Checkpoint) (o : ChunkOutcome) : Checkpoint :=
  o.increments.foldl increment_completed cp

/-! ## Workflow driver resume (`run_spatial_lookup_workflow`, spatial_lookup.py 62-216) -/

/-- Modelled from the spec: `ChunkingStrategy.create_chunk_generator`
(workflows/chunking.py, absent from src) yields the strategy's fixed,
deterministic chunk sequence (spec §4.1). -/
def create_chunk_generator (chunks : List α) : List α :=
  chunks

/-- Modelled from the spec: `ChunkingStrategy.skip_to_index n`
(workflows/chunking.py, absent from src) returns a generator positioned after
the first `n` chunks of the same fixed sequence (spec §4.1). -/
def skip_to_index (chunks : List α) (n : ℕ) : List α :=
  chunks.drop n

/-- The `completed_chunks` count restored by the driver
(spatial_lookup.py 103-120): 0, unless `resume_from_checkpoint` is set and
checkpoint data exists, in which case the checkpoint's value. -/
def driverCompleted (resume : Bool) (checkpoint : Option ℕ) : ℕ :=
  if resume then (match checkpoint with | some k => k | none => 0) else 0

/-- The chunk sequence the driver submits (spatial_lookup.py 143-187): the
generator from `skip_to_index completed` when `completed > 0`, else the full
generator. -/
def driverSubmitted (resume : Bool) (checkpoint : Option ℕ) (chunks : List α) : List α :=
  let k := driverCompleted resume checkpoint
  if k > 0 then skip_to_index chunks k else create_chunk_generator chunks

/-- The final `completed_chunks` value the driver writes after submission
(spatial_lookup.py 190-194): `completed + chunk_tasks` when any task was
submitted, otherwise unchanged. -/
def driverFinalCompleted (resume : Bool) (checkpoint : Option ℕ) (chunks : List α) : ℕ :=
  let k := driverCompleted resume checkpoint
  let t := (driverSubmitted resume checkpoint chunks).length
  if t > 0 then k + t else k

/-! ## Completion monitor (`monitor_spatial_lookup_completion`, spatial_lookup.py 366-429) -/

/-- One iteration's observations: the `process` queue length, the checkpoint's
`completed_chunks` (when workflow data exists), and whether
`rebuild_indices_for_spatial_lookup` would succeed (with the raised message
otherwise). -/
structure MonitorObs where
  queueLength : ℕ
  workflowData : Option ℕ
  rebuildOk : Bool
  rebuildMsg : String
deriving Repr

/-- The checkpoint fields the monitor writes when it stops. -/
structure MonitorResult where
  status : String
  lastError : Option String
  indexRebuildComplete : Bool
deriving DecidableEq, Repr

/-- `max_wait_time = 3600 * 24 * 3` seconds (spatial_lookup.py 380). -/
def maxWaitTime : ℕ := 3600 * 24 * 3

/-- `polling_interval = 360` seconds (spatial_lookup.py 382). -/
def pollingInterval : ℕ := 360

/-- The monitor's completion condition at one observation
(spatial_lookup.py 392-398): workflow data exists, the queue is empty, and
`completed_chunks >= total_chunks`. -/
def monitorDone (total : ℕ) (o : MonitorObs) : Prop :=
  ∃ c, o.workflowData = some c ∧ o.queueLength = 0 ∧ c ≥ total

instance (total : ℕ) (o : MonitorObs) : Decidable (monitorDone total o) := by
  unfold monitorDone
  cases h : o.workflowData with
  | none => exact .isFalse (by simp [h])
  | some c =>
      exact decidable_of_iff (o.queueLength = 0 ∧ c ≥ total) (by simp [h])

/-- The monitor loop (spatial_lookup.py 384-429) from iteration `k` on. Each
iteration observes the queue and checkpoint; on the completion condition it
rebuilds indices and marks the workflow `completed` (or `error` with the
raised message if the rebuild fails) and stops; otherwise, once the elapsed
time `pollingInterval * k` exceeds `maxWaitTime`, it marks the workflow
`error` with `last_error="Monitoring timed out"` and stops; else it sleeps one
interval and iterates. -/
def monitorLoop (total : ℕ) (obs : ℕ → MonitorObs) (k : ℕ) : MonitorResult :=
  let o := obs k
  if monitorDone total o then
    if o.rebuildOk then ⟨"completed", none, true⟩
    else ⟨"error", some o.rebuildMsg, false⟩
  else if pollingInterval * k > maxWaitTime then
    ⟨"error", some "Monitoring timed out", false⟩
  else
    monitorLoop total obs (k + 1)
  termination_by maxWaitTime / pollingInterval + 1 - k
  decreasing_by
    simp only [pollingInterval, maxWaitTime] at *
    omega

/-- `monitor_spatial_lookup_completion` (spatial_lookup.py 366-429). -/
def monitor_spatial_lookup_completion (total : ℕ) (obs : ℕ → MonitorObs) : MonitorResult :=
  monitorLoop total obs 0

/-! ## Missing-roots repair (`ingest_new_annotations.py`)

A segmentation row as seen by the repair scan: its id and its `_root_id`
columns, `none` standing for SQL `NULL`. -/

structure RootRow where
  id : ℕ
  roots : List (Option ℕ)
deriving DecidableEq, Repr

/-- `OR` over `root_id IS NULL` for every root-id column
(ingest_new_annotations.py 145-152). -/
def hasMissingRoot (r : RootRow) : Bool :=
  r.roots.any (·.isNone)

/-- A Python value returned inside the chunk list of
`get_ids_with_missing_roots`: either a chunk (a list of ids) or — on the
`min_id == max_id` path — a bare integer id. -/
inductive PyChunk where
  | int (n : ℕ)
  | ofList (l : List ℕ)
deriving DecidableEq, Repr

/-- Modelled from the spec: `create_chunks(id_range, 500)`
(shared_tasks.py, absent from src) partitions the contiguous id range into
fixed-size chunks (spec §4.9: "partitions the contiguous [min, max] ID range
into fixed-size chunks (500 IDs)"). -/
def create_chunks (ids : List ℕ) (size : ℕ) : List (List ℕ) :=
  batchesOf size ids

/-- `get_ids_with_missing_roots(mat_metadata)`
(ingest_new_annotations.py 130-173) over the segmentation table rows:
`MIN(id)`/`MAX(id)` filtered on any root column NULL (an empty scalar is
Python `None`, and `if min_id and max_id` also treats the id 0 as falsy);
`min < max` → the 500-id chunks of `range(min, max+1)`;
`min == max` → the flat list `[min_id]`; otherwise `None`. -/
def get_ids_with_missing_roots (table : List RootRow) : Option (List PyChunk) :=
  let missingIds := (table.filter hasMissingRoot).map (·.id)
  match missingIds.min?, missingIds.max? with
  | some mn, some mx =>
      if mn ≠ 0 ∧ mx ≠ 0 then
        if mn < mx then
          some ((create_chunks (List.range' mn (mx + 1 - mn)) 500).map PyChunk.ofList)
        else if mn = mx then some [PyChunk.int mn]
        else none
      else none
  | _, _ => none

/-- `chunk = [missing_root_id_chunk[0], missing_root_id_chunk[-1]]` at the top
of `lookup_root_ids` (ingest_new_annotations.py 229): indexing succeeds only
for a non-empty list; on an `int` (or an empty list) Python raises, so the
repair unit fails before doing any work. -/
def lookup_root_ids_chunk_bounds : PyChunk → Option (ℕ × ℕ)
  | .int _ => none
  | .ofList l =>
      match l.head?, l.getLast? with
      | some a, some b => some (a, b)
      | _, _ => none

/-! ## Root-ID resolver (`get_new_root_ids`, ingest_new_annotations.py 542-628) -/

/-- One row of `supervoxel_df`: the annotation id with its
`_supervoxel_id` column values (position columns are dropped before this
point). -/
structure SvRow where
  id : ℕ
  svs : List ℕ
deriving DecidableEq, Repr

/-- One row of `root_ids_df`: supervoxel columns joined with root-id columns
(`none` = NULL/NaN, i.e. not yet resolved). -/
structure MergedRow where
  id : ℕ
  svs : List ℕ
  roots : List (Option ℕ)
deriving DecidableEq, Repr

/-- The mask `np.logical_and.reduce([isna(col) for col in root columns])`:
every root-id column of the row is still null
(ingest_new_annotations.py 617). -/
def allRootsNone (r : MergedRow) : Bool :=
  r.roots.all (·.isNone)

/-- Building `root_ids_df` (ingest_new_annotations.py 597-610): when the
database returned prior root rows, `pd.merge` (an inner join on `id`,
preserving the left frame's order) pairs each supervoxel row with its stored
roots; when it returned nothing, every row gets all-NaN root columns. -/
def mergeCurrentRoots (numRootCols : ℕ) (svRows : List SvRow) (current : List RootRow) :
    List MergedRow :=
  if current.isEmpty then
    svRows.map (fun r => ⟨r.id, r.svs, List.replicate numRootCols none⟩)
  else
    svRows.filterMap
      (fun r => (current.find? (fun s => s.id = r.id)).map (fun s => ⟨r.id, r.svs, s.roots⟩))

/-- Write the chunked-graph results back
(ingest_new_annotations.py 619-626): the masked rows, in order, receive for
each root column `j` the `j`-th returned array at their position among the
masked rows; unmasked rows are untouched. -/
def writeRootsBack (arrs : List (List ℕ)) (p : ℕ) : List MergedRow → List MergedRow
  | [] => []
  | r :: rest =>
      if allRootsNone r then
        ⟨r.id, r.svs, arrs.map (fun a => some (a.getD p 0))⟩ :: writeRootsBack arrs (p + 1) rest
      else
        r :: writeRootsBack arrs p rest

/-- The argument of the chunked-graph call for root column `j`: the `j`-th
supervoxel column of the rows whose root columns are all null
(ingest_new_annotations.py 620-625). -/
def cgCallArg (rows : List MergedRow) (j : ℕ) : List ℕ :=
  (rows.filter allRootsNone).map (fun r => r.svs.getD j 0)

/-- `get_new_root_ids(materialization_data, mat_metadata)`
(ingest_new_annotations.py 542-628), abstracted over the database read of
existing roots (`dbFetch`, whose `SQLAlchemyError` is caught and replaced by
the empty result, 579-591) and the chunked-graph client
(`cg`, the `get_roots` call of 631-635, whose errors are NOT caught and
propagate). Rows with every root column null get fresh roots per column by
positional index; all rows are returned record-oriented. -/
def get_new_root_ids (numRootCols : ℕ) (svRows : List SvRow)
    (dbFetch : Except Unit (List RootRow))
    (cg : List ℕ → Except Unit (List ℕ)) : Except Unit (List MergedRow) :=
  let current := match dbFetch with
    | .error _ => []
    | .ok l => l
  let rows := mergeCurrentRoots numRootCols svRows current
  if (rows.filter allRootsNone).isEmpty then .ok rows
  else do
    let arrs ← (List.range numRootCols).mapM (fun j => cg (cgCallArg rows j))
    .ok (writeRootsBack arrs 0 rows)

/-! ## Concrete scenario data (spec §8) -/

/-- Scenario S1's environment: segmentation resolution `(8,8,40)`,
`coord_resolution=(4,4,40)`, and a scattered-points service answering
`{(5,10,30): 111}`. -/
def s1Env : ScatterEnv :=
  { resolution := (8, 8, 40),
    coordResolution := (4, 4, 40),
    chunkPos := fun p => p,
    scattered := fun _ => [((5, 10, 30), 111)] }

/-- Scenario S1's single annotation point: `id=7`, `pt_position=(10,20,30)`. -/
def s1Rows : List PtRow :=
  [⟨7, "pt", (10, 20, 30)⟩]

/-! ## Helper lemmas -/

/-- Inserting into a sorted list is a permutation of consing. -/
theorem insertSorted_perm (le : α → α → Bool) (x : α) (l : List α) :
    (insertSorted le x l).Perm (x :: l) := by
  induction l with
  | nil => exact List.Perm.refl _
  | cons y ys ih =>
      simp only [insertSorted]
      by_cases hxy : le x y
      · simp [hxy]
      · simp only [hxy, Bool.false_eq_true, if_false]
        exact (ih.cons y).trans (List.Perm.swap x y ys)

/-- Sorting is a permutation. -/
theorem sortByBool_perm (le : α → α → Bool) (l : List α) :
    (sortByBool le l).Perm l := by
  induction l with
  | nil => exact List.Perm.refl _
  | cons x xs ih =>
      exact (insertSorted_perm le x (sortByBool le xs)).trans (ih.cons x)

/-- The integer embedding of one component of the scaled key:
`fdiv (a * cr) res` is exactly `floor (a / (res / cr))` over ℚ. -/
theorem fdiv_eq_floor_div_scale (a : ℤ) (res cr : ℕ) (hres : 0 < res) (hcr : 0 < cr) :
    Int.fdiv (a * cr) res = ⌊(a : ℚ) / ((res : ℚ) / (cr : ℚ))⌋ := by
  have hrq : ((res : ℚ)) ≠ 0 := by positivity
  have hcq : ((cr : ℚ)) ≠ 0 := by positivity
  have h1 : (a : ℚ) / ((res : ℚ) / (cr : ℚ)) = (((a * cr : ℤ)) : ℚ) / ((res : ℕ) : ℚ) := by
    push_cast
    rw [div_div_eq_mul_div]
  rw [h1, Rat.floor_intCast_div_natCast]
  exact Int.fdiv_eq_ediv _ (by positivity)

/-- `normalize_positions` computes the componentwise rational floor
`floor(pt / (resolution / coord_resolution))`. -/
theorem normalize_positions_eq_floor (p : Point3) (res cr : Res3)
    (hres : 0 < res.1 ∧ 0 < res.2.1 ∧ 0 < res.2.2)
    (hcr : 0 < cr.1 ∧ 0 < cr.2.1 ∧ 0 < cr.2.2) :
    normalize_positions p res cr =
      (⌊(p.1 : ℚ) / ((res.1 : ℚ) / (cr.1 : ℚ))⌋,
       ⌊(p.2.1 : ℚ) / ((res.2.1 : ℚ) / (cr.2.1 : ℚ))⌋,
       ⌊(p.2.2 : ℚ) / ((res.2.2 : ℚ) / (cr.2.2 : ℚ))⌋) := by
  simp only [normalize_positions]
  rw [fdiv_eq_floor_div_scale _ _ _ hres.1 hcr.1,
    fdiv_eq_floor_div_scale _ _ _ hres.2.1 hcr.2.1,
    fdiv_eq_floor_div_scale _ _ _ hres.2.2 hcr.2.2]

/-- Re-making a `PtRow` from its fields is the identity. -/
theorem ptRow_eta : (fun (r : PtRow) => PtRow.mk r.id r.ty r.pt) = id := by
  funext r
  cases r
  rfl

/-- `firstOccurGo` with enough fuel is duplicate-free and preserves
membership. -/
theorem firstOccurGo_nodup_mem [DecidableEq α] :
    ∀ (fuel : ℕ) (l : List α), l.length ≤ fuel →
      (firstOccurGo fuel l).Nodup ∧ ∀ a, a ∈ firstOccurGo fuel l ↔ a ∈ l := by
  intro fuel
  induction fuel with
  | zero =>
      intro l hl
      have : l = [] := List.length_eq_zero.mp (Nat.le_zero.mp hl)
      subst this
      simp [firstOccurGo]
  | succ fuel ih =>
      intro l hl
      cases l with
      | nil => simp [firstOccurGo]
      | cons x xs =>
          have hlen : (xs.filter (· ≠ x)).length ≤ fuel :=
            le_trans (List.length_filter_le _ _) (by simpa using hl)
          obtain ⟨hnd, hmem⟩ := ih _ hlen
          have hxnot : x ∉ firstOccurGo fuel (xs.filter (· ≠ x)) := by
            rw [hmem x, List.mem_filter]
            simp
          refine ⟨?_, ?_⟩
          · exact List.nodup_cons.mpr ⟨hxnot, hnd⟩
          · intro a
            show a ∈ x :: firstOccurGo fuel (xs.filter (· ≠ x)) ↔ a ∈ x :: xs
            simp only [List.mem_cons, hmem a, List.mem_filter]
            by_cases hax : a = x
            · simp [hax]
            · simp [hax]

/-- `firstOccur` is duplicate-free. -/
theorem firstOccur_nodup [DecidableEq α] (l : List α) : (firstOccur l).Nodup :=
  (firstOccurGo_nodup_mem l.length l le_rfl).1

/-- `firstOccur` preserves membership. -/
theorem firstOccur_mem [DecidableEq α] (l : List α) (a : α) : a ∈ firstOccur l ↔ a ∈ l :=
  (firstOccurGo_nodup_mem l.length l le_rfl).2 a

/-- Permutations agree on `all`. -/
theorem perm_all_eq (p : α → Bool) {l1 l2 : List α} (h : l1.Perm l2) :
    l1.all p = l2.all p := by
  cases hb : l2.all p with
  | true =>
      rw [List.all_eq_true] at hb ⊢
      exact fun x hx => hb x (h.mem_iff.mp hx)
  | false =>
      rw [List.all_eq_false] at hb ⊢
      obtain ⟨x, hx, hpx⟩ := hb
      exact ⟨x, h.mem_iff.mpr hx, hpx⟩


/-- Overwriting fold: folding "take `f r` whenever `p r` matches" computes the
last matching element's value (or the start value if none matches). -/
theorem foldl_overwrite {α β : Type _} (p : α → Prop) [DecidablePred p] (f : α → β) (a : β)
    (l : List α) :
    l.foldl (fun acc r => if p r then f r else acc) a =
      ((((l.filter (fun r => p r)).map f).getLast?).getD a) := by
  induction l generalizing a with
  | nil => rfl
  | cons x xs ih =>
      by_cases hx : p x
      · simp only [List.foldl_cons, List.filter_cons, hx, if_pos, decide_True, List.map_cons]
        rw [ih]
        rcases h : (((xs.filter (fun r => p r)).map f)).getLast? with _ | v
        · simp [List.getLast?_cons, h]
        · simp [List.getLast?_cons, h]
      · simp only [List.foldl_cons, List.filter_cons, hx, if_neg, decide_False]
        simp only [Bool.false_eq_true, if_false]
        exact ih a

/-- `getD` through `zipWith`. -/
theorem getD_zipWith (f : ℕ → ℕ → ℕ) :
    ∀ (w a : List ℕ) (j : ℕ), j < w.length → j < a.length →
      (List.zipWith f w a).getD j 0 = f (w.getD j 0) (a.getD j 0) := by
  intro w
  induction w with
  | nil => intro a j h; simp at h
  | cons x xs ih =>
      intro a j hw ha
      cases a with
      | nil => simp at ha
      | cons y ys =>
          cases j with
          | zero => simp [List.getD]
          | succ j =>
              simp only [List.zipWith_cons_cons, List.getD_cons_succ]
              exact ih ys j (by simpa using hw) (by simpa using ha)

/-- `mergeSegRow` keeps the stored id. -/
theorem mergeSegRow_id (e r : SegRow) : (mergeSegRow e r).id = e.id := rfl

/-- Upserting a row whose id is present replaces (only) the first stored row
with that id by the merged row. -/
theorem findSegRow_upsert (table : List SegRow) (e r : SegRow)
    (h : findSegRow table r.id = some e) :
    findSegRow (upsertSegRow table r) r.id = some (mergeSegRow e r) := by
  induction table with
  | nil => simp [findSegRow] at h
  | cons e0 t ih =>
      by_cases h0 : e0.id = r.id
      · have : findSegRow (e0 :: t) r.id = some e0 := by
          simp [findSegRow, List.find?_cons, h0]
        rw [this] at h
        cases h
        simp [upsertSegRow, h0, findSegRow, List.find?_cons, mergeSegRow_id]
      · have hskip : findSegRow (e0 :: t) r.id = findSegRow t r.id := by
          simp [findSegRow, List.find?_cons, h0]
        rw [hskip] at h
        simp only [upsertSegRow, h0, if_false, findSegRow, List.find?_cons, decide_False]
        exact ih h

/-- The merged column value is the incoming one when nonzero, else the
existing one. -/
theorem mergeSegRow_getD (e r : SegRow) (j : ℕ)
    (hr : j < r.cols.length) (he : j < e.cols.length) :
    (mergeSegRow e r).cols.getD j 0 =
      if r.cols.getD j 0 ≠ 0 then r.cols.getD j 0 else e.cols.getD j 0 := by
  simp only [mergeSegRow]
  exact getD_zipWith _ r.cols e.cols j hr he

/-- Folding same-id upserts over a singleton table keeps a singleton table and
folds the columns with the zero-preserving merge. -/
theorem foldl_upsert_singleton (i : ℕ) (acc : List ℕ) (ws : List (List ℕ)) :
    (ws.map (fun w => SegRow.mk i w)).foldl upsertSegRow [⟨i, acc⟩] =
      [⟨i, ws.foldl (fun a w => List.zipWith (fun inc ex => if inc ≠ 0 then inc else ex) w a) acc⟩] := by
  induction ws generalizing acc with
  | nil => rfl
  | cons w ws ih =>
      simp only [List.map_cons, List.foldl_cons]
      have hstep : upsertSegRow [⟨i, acc⟩] ⟨i, w⟩ =
          [⟨i, List.zipWith (fun inc ex => if inc ≠ 0 then inc else ex) w acc⟩] := by
        simp [upsertSegRow, mergeSegRow]
      rw [hstep, ih]

/-- Column lengths are preserved through the column-merge fold. -/
theorem foldl_zipWith_length (n : ℕ) (acc : List ℕ) (ws : List (List ℕ))
    (hacc : acc.length = n) (hws : ∀ w ∈ ws, w.length = n) :
    (ws.foldl (fun a w => List.zipWith (fun inc ex => if inc ≠ 0 then inc else ex) w a) acc).length = n := by
  induction ws generalizing acc with
  | nil => simpa using hacc
  | cons w ws ih =>
      simp only [List.foldl_cons]
      refine ih _ ?_ (fun w' hw' => hws w' (List.mem_cons_of_mem _ hw'))
      have hw : w.length = n := hws w (List.mem_cons_self _ _)
      simp [List.length_zipWith, hw, hacc]

/-- The column-merge fold computed pointwise. -/
theorem foldl_zipWith_getD (n j : ℕ) (acc : List ℕ) (ws : List (List ℕ))
    (hacc : acc.length = n) (hws : ∀ w ∈ ws, w.length = n) (hj : j < n) :
    (ws.foldl (fun a w => List.zipWith (fun inc ex => if inc ≠ 0 then inc else ex) w a) acc).getD j 0 =
      ws.foldl (fun a w => if w.getD j 0 ≠ 0 then w.getD j 0 else a) (acc.getD j 0) := by
  induction ws generalizing acc with
  | nil => rfl
  | cons w ws ih =>
      simp only [List.foldl_cons]
      have hw : w.length = n := hws w (List.mem_cons_self _ _)
      rw [ih _ (by simp [List.length_zipWith, hw, hacc]) (fun w' hw' => hws w' (List.mem_cons_of_mem _ hw'))]
      rw [getD_zipWith _ _ _ j (by omega) (by omega)]

/-- The nonzero-overwrite fold starting at 0 computes the last nonzero value
(or 0). -/
theorem foldl_nonzero_lastNonzeroOr0 (vs : List ℕ) :
    vs.foldl (fun a v => if v ≠ 0 then v else a) 0 = lastNonzeroOr0 vs := by
  have h := foldl_overwrite (fun v => v ≠ 0) (fun (v : ℕ) => v) 0 vs
  simpa [lastNonzeroOr0, List.map_id'] using h

/-- A pivot cell is the last matching row's supervoxel id (or 0 if the id has
no row of that type). -/
theorem pivotCell_eq_getLast (recs : List SvRec) (i : ℕ) (c : String) :
    pivotCell recs i c =
      (((recs.filter (fun r => r.id = i ∧ r.ty = c)).map (fun r => r.svids)).getLast?).getD 0 := by
  unfold pivotCell
  rw [foldl_overwrite (fun r => r.ty = c) (fun (r : SvRec) => r.svids) 0
    (recs.filter (fun r => decide (r.id = i)))]
  rw [List.filter_filter]
  have hfe : (List.filter (fun (a : SvRec) => decide (a.ty = c) && decide (a.id = i)) recs) =
      (List.filter (fun r => decide (r.id = i ∧ r.ty = c)) recs) := by
    apply List.filter_congr
    intro r _
    by_cases h1 : r.id = i <;> by_cases h2 : r.ty = c <;> simp [h1, h2]
  rw [hfe]

/-- A pivot cell with no matching row is 0. -/
theorem pivotCell_eq_zero (recs : List SvRec) (i : ℕ) (c : String)
    (h : ∀ r ∈ recs, ¬(r.id = i ∧ r.ty = c)) :
    pivotCell recs i c = 0 := by
  rw [pivotCell_eq_getLast]
  have hnil : recs.filter (fun r => r.id = i ∧ r.ty = c) = [] := by
    rw [List.filter_eq_nil_iff]
    intro r hr
    simpa using h r hr
  rw [hnil]
  rfl

/-- `writeRootsBack` preserves the row count. -/
theorem writeRootsBack_length (arrs : List (List ℕ)) :
    ∀ (l : List MergedRow) (p : ℕ), (writeRootsBack arrs p l).length = l.length := by
  intro l
  induction l with
  | nil => intro p; rfl
  | cons r rest ih =>
      intro p
      by_cases hr : allRootsNone r
      · simp [writeRootsBack, hr, ih]
      · simp [writeRootsBack, hr, ih]

/-- Positional characterization of `writeRootsBack`: row `m` is untouched
unless all its root columns are null, in which case each root column `j`
receives the `j`-th result array at the row's position among the
all-null rows so far. -/
theorem writeRootsBack_getElem (arrs : List (List ℕ)) :
    ∀ (l : List MergedRow) (p m : ℕ),
      (writeRootsBack arrs p l)[m]? =
        (l[m]?).map (fun r =>
          if allRootsNone r then
            ⟨r.id, r.svs,
              arrs.map (fun a =>
                some (a.getD (p + ((l.take m).filter allRootsNone).length) 0))⟩
          else r) := by
  intro l
  induction l with
  | nil => intro p m; simp [writeRootsBack]
  | cons r rest ih =>
      intro p m
      cases m with
      | zero =>
          by_cases hr : allRootsNone r
          · simp [writeRootsBack, hr]
          · simp [writeRootsBack, hr]
      | succ m =>
          by_cases hr : allRootsNone r
          · simp only [writeRootsBack, hr, if_pos, List.getElem?_cons_succ]
            rw [ih (p + 1) m]
            cases hrm : rest[m]? with
            | none => rfl
            | some rr =>
                simp only [Option.map_some']
                by_cases hrr : allRootsNone rr
                · simp only [hrr, if_pos]
                  have harith : p + 1 + ((rest.take m).filter allRootsNone).length =
                      p + (((r :: rest).take (m + 1)).filter allRootsNone).length := by
                    simp [List.take_succ_cons, List.filter_cons, hr]
                    omega
                  rw [harith]
                · simp [hrr]
          · simp only [writeRootsBack, hr, Bool.false_eq_true, if_false, List.getElem?_cons_succ]
            rw [ih p m]
            cases hrm : rest[m]? with
            | none => rfl
            | some rr =>
                simp only [Option.map_some']
                by_cases hrr : allRootsNone rr
                · simp only [hrr, if_pos]
                  have harith : p + ((rest.take m).filter allRootsNone).length =
                      p + (((r :: rest).take (m + 1)).filter allRootsNone).length := by
                    simp [List.take_succ_cons, List.filter_cons, hr]
                  rw [harith]
                · simp [hrr]

/-- Unfolding `get_new_root_ids` on a successful database fetch. -/
theorem get_new_root_ids_ok_eq (numRootCols : ℕ) (svRows : List SvRow)
    (current : List RootRow) (cg : List ℕ → Except Unit (List ℕ)) :
    get_new_root_ids numRootCols svRows (.ok current) cg =
      if ((mergeCurrentRoots numRootCols svRows current).filter allRootsNone).isEmpty = true
      then Except.ok (mergeCurrentRoots numRootCols svRows current)
      else
        ((List.range numRootCols).mapM
            (fun j => cg (cgCallArg (mergeCurrentRoots numRootCols svRows current) j)) >>=
          fun arrs =>
            Except.ok (writeRootsBack arrs 0 (mergeCurrentRoots numRootCols svRows current))) :=
  rfl

/-! ## Claim theorems -/

/-- C1: for the segmentation upsert (`insert_segmentation_data` in the
spatial-lookup workflow): for every existing segmentation row and every
incoming row with the same id, after the upsert each non-id column equals the
incoming value when that incoming value is nonzero and otherwise retains the
existing value; consequently, for any sequence of upserts to the same id, the
final value of each column is the last nonzero value supplied for it, or zero
if no upsert ever supplied a nonzero value. -/
theorem C1_upsert_zero_preserving :
    (∀ (table : List SegRow) (e r : SegRow), findSegRow table r.id = some e →
       findSegRow (upsertSegRow table r) r.id = some (mergeSegRow e r) ∧
       ∀ j, j < r.cols.length → j < e.cols.length →
         (mergeSegRow e r).cols.getD j 0 =
           if r.cols.getD j 0 ≠ 0 then r.cols.getD j 0 else e.cols.getD j 0) ∧
    (∀ (i n : ℕ) (ws : List (List ℕ)), ws ≠ [] → (∀ w ∈ ws, w.length = n) →
       ∃ row, findSegRow (insert_segmentation_data [] (ws.map (fun w => SegRow.mk i w))) i =
           some row ∧
         ∀ j, j < n → row.cols.getD j 0 = lastNonzeroOr0 (ws.map (fun w => w.getD j 0))) := by
  constructor
  · intro table e r h
    exact ⟨findSegRow_upsert table e r h, fun j hr he => mergeSegRow_getD e r j hr he⟩
  · intro i n ws hne hlen
    cases ws with
    | nil => exact absurd rfl hne
    | cons w0 ws =>
        refine ⟨⟨i, ws.foldl
          (fun a w => List.zipWith (fun inc ex => if inc ≠ 0 then inc else ex) w a) w0⟩, ?_, ?_⟩
        · have h0 : insert_segmentation_data [] ((w0 :: ws).map (fun w => SegRow.mk i w)) =
              (ws.map (fun w => SegRow.mk i w)).foldl upsertSegRow [⟨i, w0⟩] := by
            simp [insert_segmentation_data, upsertSegRow]
          rw [h0, foldl_upsert_singleton]
          simp [findSegRow, List.find?_cons]
        · intro j hj
          have hw0 : w0.length = n := hlen w0 (List.mem_cons_self _ _)
          have hws : ∀ w ∈ ws, w.length = n := fun w hw => hlen w (List.mem_cons_of_mem _ hw)
          simp only []
          rw [foldl_zipWith_getD n j w0 ws hw0 hws hj]
          rw [← foldl_nonzero_lastNonzeroOr0]
          simp only [List.foldl_map, List.foldl_cons]
          congr 1
          by_cases h0 : w0[j]?.getD 0 = 0 <;> simp [h0]

/-- C1 witness (scenario S4): a row upserted with `pt_root_id=42` and then
re-upserted with `pt_root_id=0` still holds 42, both through the single-upsert
rule and through the whole-sequence rule. -/
theorem C1_upsert_zero_preserving_witness :
    (findSegRow [SegRow.mk 1 [42]] (SegRow.mk 1 [0]).id = some (SegRow.mk 1 [42]) ∧
       (findSegRow (upsertSegRow [SegRow.mk 1 [42]] (SegRow.mk 1 [0])) (SegRow.mk 1 [0]).id =
           some (mergeSegRow (SegRow.mk 1 [42]) (SegRow.mk 1 [0])) ∧
         ∀ j, j < (SegRow.mk 1 [0]).cols.length → j < (SegRow.mk 1 [42]).cols.length →
           (mergeSegRow (SegRow.mk 1 [42]) (SegRow.mk 1 [0])).cols.getD j 0 =
             if (SegRow.mk 1 [0]).cols.getD j 0 ≠ 0 then (SegRow.mk 1 [0]).cols.getD j 0
             else (SegRow.mk 1 [42]).cols.getD j 0)) ∧
    (([[42], [0]] : List (List ℕ)) ≠ [] ∧
       (∀ w ∈ ([[42], [0]] : List (List ℕ)), w.length = 1) ∧
       ∃ row,
         findSegRow (insert_segmentation_data []
             (([[42], [0]] : List (List ℕ)).map (fun w => SegRow.mk 1 w))) 1 = some row ∧
           ∀ j, j < 1 →
             row.cols.getD j 0 = lastNonzeroOr0 (([[42], [0]] : List (List ℕ)).map (fun w => w.getD j 0))) := by
  refine ⟨⟨by decide, C1_upsert_zero_preserving.1 [SegRow.mk 1 [42]] (SegRow.mk 1 [42])
      (SegRow.mk 1 [0]) (by decide)⟩, by decide, by decide, ?_⟩
  exact C1_upsert_zero_preserving.2 1 1 [[42], [0]] (by decide) (by decide)

/-- C2: in the supervoxel resolver, for every input point the scaled key
equals the componentwise floor of the point divided by scale, where
`scale = segmentation resolution / coord_resolution` componentwise, and the
emitted supervoxel id for that point is the value the merged scattered-points
map holds for that scaled key, or 0 when the key is absent from the map. -/
theorem C2_scaled_key_and_lookup (env : ScatterEnv) (batchSize : ℕ) (rows : List PtRow)
    (hres : 0 < env.resolution.1 ∧ 0 < env.resolution.2.1 ∧ 0 < env.resolution.2.2)
    (hcr : 0 < env.coordResolution.1 ∧ 0 < env.coordResolution.2.1 ∧ 0 < env.coordResolution.2.2) :
    ((scatterRecords env batchSize rows).map (fun r => PtRow.mk r.id r.ty r.pt)).Perm rows ∧
    ∀ r ∈ scatterRecords env batchSize rows,
      normalize_positions r.pt env.resolution env.coordResolution =
        (⌊(r.pt.1 : ℚ) / ((env.resolution.1 : ℚ) / (env.coordResolution.1 : ℚ))⌋,
         ⌊(r.pt.2.1 : ℚ) / ((env.resolution.2.1 : ℚ) / (env.coordResolution.2.1 : ℚ))⌋,
         ⌊(r.pt.2.2 : ℚ) / ((env.resolution.2.2 : ℚ) / (env.coordResolution.2.2 : ℚ))⌋) ∧
      r.svids = (lookupPoint (scatterMergedMap env batchSize rows)
          (normalize_positions r.pt env.resolution env.coordResolution)).getD 0 := by
  constructor
  · simp only [scatterRecords, List.map_map]
    rw [show ((fun (r : SvRec) => PtRow.mk r.id r.ty r.pt) ∘
        (fun (r : PtRow) => SvRec.mk r.id r.ty r.pt
          (match_point_and_get_value
            (normalize_positions r.pt env.resolution env.coordResolution)
            (scatterMergedMap env batchSize rows)))) = id from funext fun r => rfl]
    rw [List.map_id]
    simp only [scatterSorted]
    exact sortByBool_perm _ rows
  · intro r hr
    simp only [scatterRecords, List.mem_map] at hr
    obtain ⟨x, _, rfl⟩ := hr
    exact ⟨normalize_positions_eq_floor x.pt env.resolution env.coordResolution hres hcr, rfl⟩

/-- C2 witness (scenario S1): `pt=(10,20,30)` with `coord_resolution=(4,4,40)`
and segmentation resolution `(8,8,40)` gives the scaled key `(5,10,30)`, whose
entry 111 in the merged map becomes the emitted supervoxel id. -/
theorem C2_scaled_key_and_lookup_witness :
    (0 < s1Env.resolution.1 ∧ 0 < s1Env.resolution.2.1 ∧ 0 < s1Env.resolution.2.2) ∧
    (0 < s1Env.coordResolution.1 ∧ 0 < s1Env.coordResolution.2.1 ∧
      0 < s1Env.coordResolution.2.2) ∧
    scatterRecords s1Env 50 s1Rows = [⟨7, "pt", (10, 20, 30), 111⟩] ∧
    normalize_positions (10, 20, 30) s1Env.resolution s1Env.coordResolution = (5, 10, 30) ∧
    (((scatterRecords s1Env 50 s1Rows).map (fun r => PtRow.mk r.id r.ty r.pt)).Perm s1Rows ∧
      ∀ r ∈ scatterRecords s1Env 50 s1Rows,
        normalize_positions r.pt s1Env.resolution s1Env.coordResolution =
          (⌊(r.pt.1 : ℚ) / ((s1Env.resolution.1 : ℚ) / (s1Env.coordResolution.1 : ℚ))⌋,
           ⌊(r.pt.2.1 : ℚ) / ((s1Env.resolution.2.1 : ℚ) / (s1Env.coordResolution.2.1 : ℚ))⌋,
           ⌊(r.pt.2.2 : ℚ) / ((s1Env.resolution.2.2 : ℚ) / (s1Env.coordResolution.2.2 : ℚ))⌋) ∧
        r.svids = (lookupPoint (scatterMergedMap s1Env 50 s1Rows)
            (normalize_positions r.pt s1Env.resolution s1Env.coordResolution)).getD 0) :=
  ⟨by decide, by decide, by decide, by decide,
    C2_scaled_key_and_lookup s1Env 50 s1Rows (by decide) (by decide)⟩

/-- C3 counterexample: the type tag `"pts"` does not end in `"pt"`, yet the
pivot emits the column `"pts_supervoxel_id"` (the source tests substring
containment over all tags, not a `pt` suffix), not the
`"pts_pt_supervoxel_id"` the claim requires for tags that do not end in
`pt`. -/
theorem C3_counterexample :
    endsInPt "pts" = false ∧
    (get_scatter_points s1Env 50 [⟨7, "pts", (10, 20, 30)⟩]).tyCols = ["pts_supervoxel_id"] ∧
    ("pts_supervoxel_id" : String) ≠ "pts_pt_supervoxel_id" := by
  refine ⟨by decide, by decide, by decide⟩

/-- C3 (amended): the pivot output is column-oriented keyed by id with one
column per distinct type tag; every tag is renamed by appending
`_supervoxel_id` when all type tags of the chunk contain `"pt"` as a substring
and `_pt_supervoxel_id` otherwise (the source evaluates
`str.contains("pt").all()` over all tags collectively, not a per-tag `pt`
suffix); and every id that has no input row for a given type gets 0 in that
type's column. -/
theorem C3_pivot_column_naming (env : ScatterEnv) (batchSize : ℕ) (rows : List PtRow) :
    (get_scatter_points env batchSize rows).tyCols.Nodup ∧
    ((scatterRecords env batchSize rows).all (fun x => hasPt x.ty.toList) =
      rows.all (fun x => hasPt x.ty.toList)) ∧
    (∀ c, c ∈ (get_scatter_points env batchSize rows).tyCols ↔
      ∃ r ∈ rows, c = renameTy (rows.all (fun x => hasPt x.ty.toList)) r.ty) ∧
    ((get_scatter_points env batchSize rows).colData =
      (get_scatter_points env batchSize rows).tyCols.map (fun c =>
        (c, (get_scatter_points env batchSize rows).ids.map
              (fun i => pivotCell (scatterTyped env batchSize rows) i c)))) ∧
    (∀ i c, (∀ r ∈ scatterTyped env batchSize rows, ¬(r.id = i ∧ r.ty = c)) →
      pivotCell (scatterTyped env batchSize rows) i c = 0) := by
  have hperm : (scatterSorted env rows).Perm rows := by
    simpa [scatterSorted] using
      sortByBool_perm
        (fun a b =>
          chunkKeyLe
            (env.chunkPos (normalize_positions a.pt env.resolution env.coordResolution))
            (env.chunkPos (normalize_positions b.pt env.resolution env.coordResolution)))
        rows
  have hall : (scatterRecords env batchSize rows).all (fun x => hasPt x.ty.toList) =
      rows.all (fun x => hasPt x.ty.toList) := by
    cases hb : rows.all (fun x => hasPt x.ty.toList) with
    | true =>
        rw [List.all_eq_true] at hb ⊢
        intro x hx
        simp only [scatterRecords, List.mem_map] at hx
        obtain ⟨y, hy, rfl⟩ := hx
        exact hb y (hperm.mem_iff.mp hy)
    | false =>
        rw [List.all_eq_false] at hb ⊢
        obtain ⟨y, hy, hpy⟩ := hb
        refine ⟨⟨y.id, y.ty, y.pt,
          match_point_and_get_value (normalize_positions y.pt env.resolution env.coordResolution)
            (scatterMergedMap env batchSize rows)⟩, ?_, hpy⟩
        simp only [scatterRecords, List.mem_map]
        exact ⟨y, hperm.mem_iff.mpr hy, rfl⟩
  refine ⟨firstOccur_nodup _, hall, ?_, rfl, fun i c h => pivotCell_eq_zero _ i c h⟩
  intro c
  have htycols : (get_scatter_points env batchSize rows).tyCols =
      firstOccur ((scatterTyped env batchSize rows).map (fun r => r.ty)) := rfl
  rw [htycols, firstOccur_mem, List.mem_map]
  constructor
  · rintro ⟨t, ht, rfl⟩
    simp only [scatterTyped, List.mem_map] at ht
    obtain ⟨x, hx, rfl⟩ := ht
    simp only [scatterRecords, List.mem_map] at hx
    obtain ⟨y, hy, rfl⟩ := hx
    exact ⟨y, hperm.mem_iff.mp hy, by rw [hall]⟩
  · rintro ⟨r, hr, rfl⟩
    have hr' : r ∈ scatterSorted env rows := hperm.mem_iff.mpr hr
    refine ⟨⟨r.id,
        renameTy ((scatterRecords env batchSize rows).all (fun x => hasPt x.ty.toList)) r.ty,
        r.pt,
        match_point_and_get_value (normalize_positions r.pt env.resolution env.coordResolution)
          (scatterMergedMap env batchSize rows)⟩, ?_, by rw [hall]⟩
    simp only [scatterTyped, scatterRecords, List.map_map, List.mem_map]
    exact ⟨r, hr', rfl⟩

/-- C3 witness: for scenario-S1-style data with type tags `"pre"` and
`"post"` (not all containing `pt`), the theorem gives the renamed columns and
a 0 cell for an id/type pair with no input row. -/
theorem C3_pivot_column_naming_witness :
    ((get_scatter_points s1Env 50 [⟨7, "pre", (10, 20, 30)⟩]).tyCols.Nodup ∧
      "pre_pt_supervoxel_id" ∈ (get_scatter_points s1Env 50 [⟨7, "pre", (10, 20, 30)⟩]).tyCols) ∧
    (∀ r ∈ scatterTyped s1Env 50 [⟨7, "pre", (10, 20, 30)⟩], ¬(r.id = 9 ∧ r.ty = "pre_pt_supervoxel_id")) ∧
    pivotCell (scatterTyped s1Env 50 [⟨7, "pre", (10, 20, 30)⟩]) 9 "pre_pt_supervoxel_id" = 0 := by
  refine ⟨⟨(C3_pivot_column_naming s1Env 50 [⟨7, "pre", (10, 20, 30)⟩]).1, ?_⟩, by decide, ?_⟩
  · exact ((C3_pivot_column_naming s1Env 50 [⟨7, "pre", (10, 20, 30)⟩]).2.2.1
      "pre_pt_supervoxel_id").mpr ⟨⟨7, "pre", (10, 20, 30)⟩, by decide, by decide⟩
  · exact (C3_pivot_column_naming s1Env 50 [⟨7, "pre", (10, 20, 30)⟩]).2.2.2.2 9
      "pre_pt_supervoxel_id" (by decide)

/-- C10: the pivot emits each distinct id exactly once (so the single
`INSERT ... ON CONFLICT` statement built from its output never contains two
rows with the same id), and when one id has several input rows with the same
type tag, the supervoxel id of the last such row in input order is the one
kept for that column. -/
theorem C10_pivot_distinct_ids_last_wins (recs : List SvRec) :
    (safe_pivot_svid_df_to_dict recs).ids.Nodup ∧
    (∀ i, i ∈ (safe_pivot_svid_df_to_dict recs).ids ↔ i ∈ recs.map (fun r => r.id)) ∧
    ((safe_pivot_svid_df_to_dict recs).colData =
      (safe_pivot_svid_df_to_dict recs).tyCols.map (fun c =>
        (c, (safe_pivot_svid_df_to_dict recs).ids.map (fun i => pivotCell recs i c)))) ∧
    (∀ i c, pivotCell recs i c =
      (((recs.filter (fun r => r.id = i ∧ r.ty = c)).map (fun r => r.svids)).getLast?).getD 0) := by
  refine ⟨firstOccur_nodup _, ?_, rfl, fun i c => pivotCell_eq_getLast recs i c⟩
  intro i
  have : (safe_pivot_svid_df_to_dict recs).ids =
      firstOccur (sortByBool (fun a b => a ≤ b) (recs.map (fun r => r.id))) := rfl
  rw [this, firstOccur_mem]
  exact (sortByBool_perm _ _).mem_iff

/-- C4: in the workflow driver, when `resume_from_checkpoint` is enabled and a
checkpoint exists with `completed_chunks = k > 0`, the chunk generator is
obtained via `skip_to_index k`, so exactly the chunks after the first `k` of
the fixed ordering are submitted and no chunk is submitted twice; when `k = 0`
or no checkpoint exists, the generator starts from the beginning; and a run
resumed at `k ≤ total` ends with `completed_chunks = total`. -/
theorem C4_resume_skip_to_index {α : Type _} (chunks : List α) (k : ℕ) :
    (driverSubmitted true (some k) chunks = skip_to_index chunks k ∧
      skip_to_index chunks k = chunks.drop k) ∧
    (chunks.take k ++ driverSubmitted true (some k) chunks = chunks) ∧
    (chunks.Nodup →
      (driverSubmitted true (some k) chunks).Nodup ∧
      ∀ c ∈ chunks.take k, c ∉ driverSubmitted true (some k) chunks) ∧
    (driverSubmitted true none chunks = chunks) ∧
    (∀ cp, driverSubmitted false cp chunks = chunks) ∧
    (k ≤ chunks.length → driverFinalCompleted true (some k) chunks = chunks.length) := by
  have hsub : driverSubmitted true (some k) chunks = chunks.drop k := by
    by_cases hk : k > 0
    · simp [driverSubmitted, driverCompleted, skip_to_index, hk]
    · have : k = 0 := by omega
      subst this
      simp [driverSubmitted, driverCompleted, create_chunk_generator]
  refine ⟨⟨?_, rfl⟩, ?_, ?_, ?_, ?_, ?_⟩
  · rw [hsub]
    rfl
  · rw [hsub]
    exact List.take_append_drop k chunks
  · intro hnd
    rw [hsub]
    exact ⟨hnd.sublist (List.drop_sublist k chunks),
      fun c hc hcd => List.disjoint_take_drop hnd le_rfl hc hcd⟩
  · simp [driverSubmitted, driverCompleted, create_chunk_generator]
  · intro cp
    simp [driverSubmitted, driverCompleted, create_chunk_generator]
  · intro hk
    simp only [driverFinalCompleted, driverCompleted, hsub]
    by_cases hlen : (chunks.drop k).length > 0
    · simp only [hlen, if_pos]
      rw [List.length_drop]
      omega
    · rw [List.length_drop] at hlen
      have hkeq : k = chunks.length := by omega
      simp [hkeq]

/-- C4 witness (scenario S2): a 10-chunk workflow resumed with 4 completed
submits exactly chunks 5..10 of the fixed ordering (indices 4..9), none twice,
and ends with `completed_chunks = 10`. -/
theorem C4_resume_skip_to_index_witness :
    ((List.range 10).Nodup ∧ (4 : ℕ) ≤ (List.range 10).length) ∧
    driverSubmitted true (some 4) (List.range 10) = [4, 5, 6, 7, 8, 9] ∧
    (driverSubmitted true (some 4) (List.range 10)).Nodup ∧
    driverFinalCompleted true (some 4) (List.range 10) = 10 := by
  refine ⟨⟨by decide, by decide⟩, by decide, ?_, ?_⟩
  · exact ((C4_resume_skip_to_index (List.range 10) 4).2.2.1 (by decide)).1
  · have h := (C4_resume_skip_to_index (List.range 10) 4).2.2.2.2.2 (by decide)
    simpa using h

/-- C5: for every chunk whose spatial query returns no points, `process_chunk`
treats this as success, not error: it increments the checkpoint's completed
count with `rows_processed=0`, issues no supervoxel lookup and no upsert, and
the completed chunk count advances by 1. -/
theorem C5_empty_chunk_success (getRootIds uploadToDatabase : Bool) (env : ScatterEnv)
    (batchSize : ℕ) {ρ : Type} (rootLookup : PivotOut → List ρ) (cp : Checkpoint) :
    get_pts_from_bbox ([] : List PtRow) = none ∧
    process_chunk getRootIds uploadToDatabase true env batchSize rootLookup [] =
      .ok ⟨[0], false, false, false, 0, 0⟩ ∧
    (applyIncrements cp ⟨[0], false, false, false, 0, 0⟩).completedChunks =
      cp.completedChunks + 1 :=
  ⟨rfl, rfl, rfl⟩

/-- C9: in `process_chunk`, the variable holding the root-id result is
assigned only inside the branch guarded by `get_root_ids` being true and the
supervoxel count being positive; therefore every non-empty chunk processed
with `get_root_ids=False` and `upload_to_database=True` hits an
unbound-variable error when the upload condition is evaluated, so the chunk
can never succeed under that configuration. -/
theorem C9_get_root_ids_false_unbound (reportCompletion : Bool) (env : ScatterEnv)
    (batchSize : ℕ) {ρ : Type} (rootLookup : PivotOut → List ρ)
    (queryResult : List PtRow) (h : queryResult ≠ []) :
    process_chunk false true reportCompletion env batchSize rootLookup queryResult =
      .error .unboundLocalRootIdData := by
  have hne : queryResult.isEmpty = false := by
    cases queryResult with
    | nil => exact absurd rfl h
    | cons a l => rfl
  simp [process_chunk, get_pts_from_bbox, hne]

/-- C9 witness: the scenario-S1 chunk (one point) processed with
`get_root_ids=False` and `upload_to_database=True` fails with the
unbound-local error. -/
theorem C9_get_root_ids_false_unbound_witness :
    s1Rows ≠ [] ∧
    process_chunk false true true s1Env 50 (fun (_ : PivotOut) => ([] : List ℕ)) s1Rows =
      .error .unboundLocalRootIdData :=
  ⟨by decide, C9_get_root_ids_false_unbound true s1Env 50 _ s1Rows (by decide)⟩

/-- If the monitor loop from iteration `k` ends `completed`, some observation
satisfied the completion condition. -/
theorem monitorLoop_completed_imp (total : ℕ) (obs : ℕ → MonitorObs) :
    ∀ (n k : ℕ), 721 - k ≤ n →
      monitorLoop total obs k = ⟨"completed", none, true⟩ →
      ∃ j, monitorDone total (obs j) := by
  intro n
  induction n with
  | zero =>
      intro k hk hres
      by_cases hd : monitorDone total (obs k)
      · exact ⟨k, hd⟩
      · exfalso
        unfold monitorLoop at hres
        rw [if_neg hd] at hres
        have ht : pollingInterval * k > maxWaitTime := by
          simp only [pollingInterval, maxWaitTime]
          omega
        rw [if_pos ht] at hres
        have := congrArg MonitorResult.status hres
        exact absurd this (by decide)
  | succ n ih =>
      intro k hk hres
      by_cases hd : monitorDone total (obs k)
      · exact ⟨k, hd⟩
      · unfold monitorLoop at hres
        rw [if_neg hd] at hres
        by_cases ht : pollingInterval * k > maxWaitTime
        · rw [if_pos ht] at hres
          have := congrArg MonitorResult.status hres
          exact absurd this (by decide)
        · rw [if_neg ht] at hres
          exact ih (k + 1) (by omega) hres

/-- If no observation up to poll 721 satisfies the completion condition, the
monitor loop times out with the recorded error. -/
theorem monitorLoop_timeout (total : ℕ) (obs : ℕ → MonitorObs) :
    ∀ (n k : ℕ), 721 - k ≤ n → k ≤ 721 →
      (∀ j, j ≤ 721 → ¬ monitorDone total (obs j)) →
      monitorLoop total obs k = ⟨"error", some "Monitoring timed out", false⟩ := by
  intro n
  induction n with
  | zero =>
      intro k hk hk721 hall
      have hkeq : k = 721 := by omega
      subst hkeq
      unfold monitorLoop
      rw [if_neg (hall 721 le_rfl)]
      rw [if_pos (by simp only [pollingInterval, maxWaitTime]; omega)]
  | succ n ih =>
      intro k hk hk721 hall
      unfold monitorLoop
      rw [if_neg (hall k hk721)]
      by_cases ht : pollingInterval * k > maxWaitTime
      · rw [if_pos ht]
      · rw [if_neg ht]
        have hk720 : k ≤ 720 := by
          simp only [pollingInterval, maxWaitTime] at ht
          omega
        exact ih (k + 1) (by omega) (by omega) hall

/-- C6: the completion monitor polls every 360 seconds with a 72-hour
(259200-second) cap, reached strictly after poll 720, i.e. at poll 721; it
marks the workflow completed with `index_rebuild_complete=true` only when some
poll observed an empty queue together with `completed_chunks >= total_chunks`;
and when no poll up to that cap observes the condition, it marks the workflow
`error` with `last_error="Monitoring timed out"` and stops. -/
theorem C6_monitor_completion_and_timeout (total : ℕ) (obs : ℕ → MonitorObs) :
    (pollingInterval = 360 ∧ maxWaitTime = 3600 * 24 * 3 ∧
      pollingInterval * 721 > maxWaitTime ∧ ∀ j, j < 721 → ¬ pollingInterval * j > maxWaitTime) ∧
    (monitor_spatial_lookup_completion total obs = ⟨"completed", none, true⟩ →
      ∃ j, monitorDone total (obs j)) ∧
    ((∀ j, j ≤ 721 → ¬ monitorDone total (obs j)) →
      monitor_spatial_lookup_completion total obs =
        ⟨"error", some "Monitoring timed out", false⟩) := by
  refine ⟨⟨rfl, rfl, by decide, ?_⟩, ?_, ?_⟩
  · intro j hj
    simp only [pollingInterval, maxWaitTime]
    omega
  · intro hres
    exact monitorLoop_completed_imp total obs 721 0 (by omega) hres
  · intro hall
    exact monitorLoop_timeout total obs 721 0 (by omega) (by omega) hall

/-- C6 witness: a monitor that immediately observes queue length 0 with all 3
chunks completed finishes `completed`, and one that always observes a
non-empty queue times out with `last_error="Monitoring timed out"`. -/
theorem C6_monitor_completion_and_timeout_witness :
    (monitor_spatial_lookup_completion 3 (fun _ => ⟨0, some 3, true, ""⟩) =
        ⟨"completed", none, true⟩ ∧
      ∃ j, monitorDone 3 ((fun (_ : ℕ) => MonitorObs.mk 0 (some 3) true "") j)) ∧
    ((∀ j, j ≤ 721 → ¬ monitorDone 3 ((fun (_ : ℕ) => MonitorObs.mk 1 (some 3) true "") j)) ∧
      monitor_spatial_lookup_completion 3 (fun _ => ⟨1, some 3, true, ""⟩) =
        ⟨"error", some "Monitoring timed out", false⟩) := by
  have hdone : monitor_spatial_lookup_completion 3 (fun _ => ⟨0, some 3, true, ""⟩) =
      ⟨"completed", none, true⟩ := by
    unfold monitor_spatial_lookup_completion
    unfold monitorLoop
    rw [if_pos (by exact ⟨3, rfl, rfl, le_rfl⟩)]
    rfl
  have hnever : ∀ j, j ≤ 721 → ¬ monitorDone 3 ((fun (_ : ℕ) => MonitorObs.mk 1 (some 3) true "") j) := by
    intro j _
    rintro ⟨c, _, hq, _⟩
    simp at hq
  refine ⟨⟨hdone, ?_⟩, hnever, ?_⟩
  · exact (C6_monitor_completion_and_timeout 3 (fun _ => ⟨0, some 3, true, ""⟩)).2.1 hdone
  · exact (C6_monitor_completion_and_timeout 3 (fun _ => ⟨1, some 3, true, ""⟩)).2.2 hnever

/-- C7: evaluation of the missing-roots scan at its failing input. With a
single row (id 7) missing a root, `get_ids_with_missing_roots` returns the
flat list `[7]` instead of a one-chunk partition `[[7]]`, and the repair unit
`lookup_root_ids` cannot even extract the chunk bounds from the bare integer
(Python raises `TypeError` on `7[0]`), so the row is never repaired. On the
healthy `min < max` path the contiguous range is partitioned into 500-id
chunks whose bounds the repair unit extracts; with no missing root the scan
returns `None` without scheduling work. -/
theorem C7_min_eq_max_returns_flat_id :
    get_ids_with_missing_roots [⟨7, [none]⟩] = some [PyChunk.int 7] ∧
    lookup_root_ids_chunk_bounds (PyChunk.int 7) = none ∧
    get_ids_with_missing_roots [⟨1, [none]⟩, ⟨2, [some 5]⟩, ⟨3, [none]⟩] =
      some [PyChunk.ofList [1, 2, 3]] ∧
    lookup_root_ids_chunk_bounds (PyChunk.ofList [1, 2, 3]) = some (1, 3) ∧
    get_ids_with_missing_roots [⟨1, [some 2]⟩] = none := by
  refine ⟨by decide, rfl, by decide, rfl, by decide⟩

/-- C8: in the root-ID resolver `get_new_root_ids`, a database error while
fetching existing root ids is caught and treated as if no prior roots exist
(the resolver behaves exactly as on an empty fetch and still returns a
result), whereas an error from the chunked-graph `get_roots` call propagates
to the caller; the chunked-graph service is consulted only through the
supervoxel columns of rows in which every root-id column is still null (and
not at all when no such row exists), and the returned array is written into
the corresponding `_root_id` column by positional index. -/
theorem C8_root_resolver_error_and_write (numRootCols : ℕ) (svRows : List SvRow)
    (current : List RootRow) (cg : List ℕ → Except Unit (List ℕ)) :
    (get_new_root_ids numRootCols svRows (.error ()) cg =
      get_new_root_ids numRootCols svRows (.ok []) cg) ∧
    (∀ j, cgCallArg (mergeCurrentRoots numRootCols svRows current) j =
      ((mergeCurrentRoots numRootCols svRows current).filter allRootsNone).map
        (fun r => r.svs.getD j 0)) ∧
    ((mergeCurrentRoots numRootCols svRows current).filter allRootsNone = [] →
      ∀ cg2, get_new_root_ids numRootCols svRows (.ok current) cg =
        get_new_root_ids numRootCols svRows (.ok current) cg2) ∧
    (0 < numRootCols →
      (mergeCurrentRoots numRootCols svRows current).filter allRootsNone ≠ [] →
      cg (cgCallArg (mergeCurrentRoots numRootCols svRows current) 0) = .error () →
      get_new_root_ids numRootCols svRows (.ok current) cg = .error ()) ∧
    (∀ arrsList,
      (List.range numRootCols).mapM
          (fun j => cg (cgCallArg (mergeCurrentRoots numRootCols svRows current) j)) =
        .ok arrsList →
      (mergeCurrentRoots numRootCols svRows current).filter allRootsNone ≠ [] →
      get_new_root_ids numRootCols svRows (.ok current) cg =
        .ok (writeRootsBack arrsList 0 (mergeCurrentRoots numRootCols svRows current)) ∧
      ∀ m, (writeRootsBack arrsList 0 (mergeCurrentRoots numRootCols svRows current))[m]? =
        ((mergeCurrentRoots numRootCols svRows current)[m]?).map (fun r =>
          if allRootsNone r then
            ⟨r.id, r.svs,
              arrsList.map (fun a =>
                some (a.getD
                  ((((mergeCurrentRoots numRootCols svRows current).take m).filter
                      allRootsNone).length) 0))⟩
          else r)) := by
  refine ⟨rfl, fun j => rfl, ?_, ?_, ?_⟩
  · intro hempty cg2
    have hie : ((mergeCurrentRoots numRootCols svRows current).filter allRootsNone).isEmpty = true := by
      rw [hempty]
      rfl
    unfold get_new_root_ids
    rw [if_pos hie, if_pos hie]
  · intro hn hne hcg
    have hie : ((mergeCurrentRoots numRootCols svRows current).filter allRootsNone).isEmpty = false := by
      cases hfe : (mergeCurrentRoots numRootCols svRows current).filter allRootsNone with
      | nil => exact absurd hfe hne
      | cons a l => rfl
    rw [get_new_root_ids_ok_eq, hie]
    simp only [Bool.false_eq_true, if_false]
    obtain ⟨m, rfl⟩ : ∃ m, numRootCols = m + 1 := ⟨numRootCols - 1, by omega⟩
    rw [List.range_succ_eq_map, List.mapM_cons, hcg]
    rfl
  · intro arrsList hmap hne
    have hie : ((mergeCurrentRoots numRootCols svRows current).filter allRootsNone).isEmpty = false := by
      cases hfe : (mergeCurrentRoots numRootCols svRows current).filter allRootsNone with
      | nil => exact absurd hfe hne
      | cons a l => rfl
    constructor
    · rw [get_new_root_ids_ok_eq, hie]
      simp only [Bool.false_eq_true, if_false]
      rw [hmap]
      rfl
    · intro m
      have h := writeRootsBack_getElem arrsList
        (mergeCurrentRoots numRootCols svRows current) 0 m
      simpa using h

/-- C8 witness (scenario S5 flavour): three rows with supervoxels
`100, 200, 300` and all roots null; the db fetch errors (treated as no prior
roots), the chunked-graph answers `[1000, 2000, 3000]`, and each row receives
its root by position; with an erroring chunked-graph the resolver fails. -/
theorem C8_root_resolver_error_and_write_witness :
    (get_new_root_ids 1 [⟨1, [100]⟩, ⟨2, [200]⟩, ⟨3, [300]⟩] (.error ())
        (fun l => .ok (l.map (· * 10))) =
      get_new_root_ids 1 [⟨1, [100]⟩, ⟨2, [200]⟩, ⟨3, [300]⟩] (.ok [])
        (fun l => .ok (l.map (· * 10)))) ∧
    ((List.range 1).mapM
        (fun j => (fun l => (.ok (l.map (· * 10)) : Except Unit (List ℕ)))
          (cgCallArg (mergeCurrentRoots 1 [⟨1, [100]⟩, ⟨2, [200]⟩, ⟨3, [300]⟩] []) j)) =
      .ok [[1000, 2000, 3000]] ∧
      (mergeCurrentRoots 1 [⟨1, [100]⟩, ⟨2, [200]⟩, ⟨3, [300]⟩] []).filter allRootsNone ≠ [] ∧
      get_new_root_ids 1 [⟨1, [100]⟩, ⟨2, [200]⟩, ⟨3, [300]⟩] (.ok [])
          (fun l => .ok (l.map (· * 10))) =
        .ok (writeRootsBack [[1000, 2000, 3000]] 0
          (mergeCurrentRoots 1 [⟨1, [100]⟩, ⟨2, [200]⟩, ⟨3, [300]⟩] []))) ∧
    ((0 : ℕ) < 1 ∧
      (fun (_ : List ℕ) => (.error () : Except Unit (List ℕ)))
          (cgCallArg (mergeCurrentRoots 1 [⟨1, [100]⟩, ⟨2, [200]⟩, ⟨3, [300]⟩] []) 0) =
        .error () ∧
      get_new_root_ids 1 [⟨1, [100]⟩, ⟨2, [200]⟩, ⟨3, [300]⟩] (.ok [])
          (fun _ => .error ()) =
        .error ()) := by
  refine ⟨(C8_root_resolver_error_and_write 1 [⟨1, [100]⟩, ⟨2, [200]⟩, ⟨3, [300]⟩] []
      (fun l => .ok (l.map (· * 10)))).1, ⟨?_, ?_, ?_⟩, ⟨by decide, rfl, ?_⟩⟩
  · rfl
  · decide
  · exact ((C8_root_resolver_error_and_write 1 [⟨1, [100]⟩, ⟨2, [200]⟩, ⟨3, [300]⟩] []
      (fun l => .ok (l.map (· * 10)))).2.2.2.2 [[1000, 2000, 3000]] rfl (by decide)).1
  · exact (C8_root_resolver_error_and_write 1 [⟨1, [100]⟩, ⟨2, [200]⟩, ⟨3, [300]⟩] []
      (fun _ => .error ())).2.2.2.1 (by decide) (by decide) rfl

end MatEngine
